import Mathlib

/-!
Verification of the exam scoring/submission core of a small FastAPI exam
application (`app/routers/submission_router.py`, `app/routers/exam_router.py`,
`app/schemas.py`, `app/models.py`).

Modelling conventions of this shallow embedding:
* Python strings are modelled as `List Char` (`PyStr`).
* Python numeric scores and thresholds are modelled as `ℚ` (the values the
  code manipulates — 0.0, 1.0, sums of those, 0.6, 0.7 — are all exactly
  representable, so no floating-point rounding is observable here).
* Python sets of ints are modelled as `Finset ℤ`.
* JSON values (the payloads handled by pydantic and by the `json` library)
  are modelled by the inductive `PyVal`; the `json` library itself is treated
  as an external collaborator and modelled at the JSON-value level: a database
  text cell is represented by its parse result (`StoredText`).
* A Python function that can raise an exception which the caller converts to
  a validation failure is modelled as returning `Option`.
-/

/-- Python `str` as a sequence of characters. -/
abbrev PyStr := List Char

/-- Python `str.isdigit` restricted to ASCII digits (true iff the string is
nonempty and all characters are digits). -/
def pyIsDigit (s : PyStr) : Bool :=
  !s.isEmpty && s.all fun c => '0' ≤ c && c ≤ '9'

/-- Numeric value of a digit character. -/
def digitVal (c : Char) : ℕ :=
  c.toNat - '0'.toNat

/-- Value of a string of decimal digits (used for Python `int` on an
all-digit string). -/
def natOfDigits (s : PyStr) : ℕ :=
  s.foldl (fun acc c => 10 * acc + digitVal c) 0

/-- Python whitespace stripping (`str.strip()`). -/
def pyStrip (s : PyStr) : PyStr :=
  ((s.dropWhile Char.isWhitespace).reverse.dropWhile Char.isWhitespace).reverse

/-- Python `int(s)` on a string: strip whitespace, optional sign, then a
nonempty run of digits; `none` models a raised `ValueError`. -/
def pyIntOfStr (s : PyStr) : Option ℤ :=
  match pyStrip s with
  | '-' :: rest => if pyIsDigit rest then some (-(natOfDigits rest : ℤ)) else none
  | '+' :: rest => if pyIsDigit rest then some (natOfDigits rest : ℤ) else none
  | t => if pyIsDigit t then some (natOfDigits t : ℤ) else none

/-- JSON-like Python values, as far as the submission pipeline consumes them:
`None`, ints, strings and lists. -/
inductive PyVal where
  | pnone : PyVal
  | pint (n : ℤ) : PyVal
  | pstr (s : PyStr) : PyVal
  | plist (xs : List PyVal) : PyVal
  | pdict (fields : List (PyStr × PyVal)) : PyVal

/-- Python `int(value)` applied to a generic value: ints pass through,
strings are parsed, anything else raises (`none`). -/
def pyIntOfVal : PyVal → Option ℤ
  | .pint n => some n
  | .pstr s => pyIntOfStr s
  | _ => none

/-! ## Data model (`app/models.py`) -/

/-- `app.models.Option` (a question's option row).  Named `AnswerOption`
because `Option` is taken in Lean. -/
structure AnswerOption where
  id : ℤ
  is_correct : Bool
deriving DecidableEq, Repr

/-- `app.models.Question`: the `type` column is a string constrained by the
schema to `'single'` or `'multi'`; the code branches on equality with
`"single"`. -/
structure Question where
  id : ℤ
  type : String
  options : List AnswerOption
deriving DecidableEq, Repr

/-- `app.models.ExamSession` (an attempt).  `completed_at` is reduced to the
presence flag `completed` — no claim mentions the timestamp value. -/
structure ExamSession where
  id : ℤ
  completed : Bool
  total_score : Option ℚ
  max_score : Option ℚ
  passed : Bool
deriving DecidableEq, Repr

/-- `app.models.UserResponse` (one stored response row; the autoincrement
row id is immaterial to the claims and omitted). -/
structure UserResponse where
  exam_session_id : ℤ
  question_id : ℤ
  selected_option_ids : List ℤ
deriving DecidableEq, Repr

/-- Python truthiness chain `a or b` for an optional numeric `a`:
`None` and `0` are falsy. -/
def pyOrQ (a : Option ℚ) (b : ℚ) : ℚ :=
  match a with
  | none => b
  | some x => if x = 0 then b else x

/-! ## Per-question scoring (`submission_router.score_question`) -/

/-- The set `{option.id for option in question.options if option.is_correct}`. -/
def correct_ids (question : Question) : Finset ℤ :=
  ((question.options.filter fun o => o.is_correct).map fun o => o.id).toFinset

/-- `submission_router.score_question`: per-question score for a submitted
selection.  The Python `set(int(x) for x in selected_ids)` is `toFinset`
(the caller always passes ints).  For `'single'`, `selected_set.pop() in
correct_ids` on a one-element set is the subset test. -/
def score_question (question : Question) (selected_ids : List ℤ) : ℚ :=
  let correct : Finset ℤ := correct_ids question
  let selected_set : Finset ℤ := selected_ids.toFinset
  if question.type = "single" then
    if selected_set.card ≠ 1 then 0
    else if selected_set ⊆ correct then 1 else 0
  else
    if selected_set = correct then 1 else 0

/-! ## Submission schema validation (`app/schemas.py`) -/

/-- A Python list comprehension `[f(x) for x in xs]` whose body may raise:
`none` models the raised exception propagating. -/
def tryMap (f : α → Option β) : List α → Option (List β)
  | [] => some []
  | x :: xs =>
    match f x with
    | none => none
    | some y => (tryMap f xs).map fun ys => y :: ys

/-- `value.split(",")` on a Python string. -/
def splitOnComma : PyStr → List PyStr
  | [] => [[]]
  | c :: rest =>
    if c = ',' then [] :: splitOnComma rest
    else
      match splitOnComma rest with
      | [] => [[c]]
      | t :: ts => (c :: t) :: ts

/-- `AnswerSelection.coerce_ids` (mode="before"): a string is split on commas,
each stripped nonempty token parsed with `int`; any other iterable has `int`
applied to each element; anything else raises `TypeError`.  `none` models the
raised error, which pydantic turns into a `ValidationError`. -/
def coerce_ids : PyVal → Option (List ℤ)
  | .pstr s =>
      tryMap pyIntOfStr (((splitOnComma s).map pyStrip).filter fun t => !t.isEmpty)
  | .plist xs => tryMap pyIntOfVal xs
  | _ => none

/-- A validated `AnswerSelection` (question id plus coerced option ids). -/
structure AnswerSelection where
  question_id : ℤ
  selected_option_ids : List ℤ
deriving DecidableEq, Repr

/-- Full pydantic validation of one `AnswerSelection`: the `coerce_ids`
before-validator followed by `validate_ids` (`len(set(value)) != len(value)`
rejects duplicates, empty lists are rejected). -/
def AnswerSelection.validate (question_id : ℤ) (raw : PyVal) : Option AnswerSelection :=
  match coerce_ids raw with
  | none => none
  | some ids =>
    if ids.isEmpty then none
    else if ids.toFinset.card ≠ ids.length then none
    else some ⟨question_id, ids⟩

/-- Keys of the answer dicts built by the form parser / accepted by pydantic. -/
def questionIdKey : PyStr := "question_id".toList

/-- Key for the selected option ids field. -/
def selectedIdsKey : PyStr := "selected_option_ids".toList

/-- Python `dict.get` on a string-keyed dict. -/
def pyDictGet (fields : List (PyStr × PyVal)) (key : PyStr) : Option PyVal :=
  (fields.find? fun kv => kv.1 = key).map fun kv => kv.2

/-- Pydantic structural parse of one element of `answers` into an
`AnswerSelection`: it must be a dict carrying an int-coercible
`question_id` and a `selected_option_ids` value accepted by
`AnswerSelection.validate`. -/
def parseAnswerVal : PyVal → Option AnswerSelection
  | .pdict fields =>
    match pyDictGet fields questionIdKey with
    | none => none
    | some qv =>
      match pyIntOfVal qv with
      | none => none
      | some qid =>
        match pyDictGet fields selectedIdsKey with
        | none => none
        | some sv => AnswerSelection.validate qid sv
  | _ => none

/-- `ExamSubmissionIn.ensure_unique_questions`: fails iff two answers share a
question id. -/
def ensure_unique_questions (answers : List AnswerSelection) : Bool :=
  decide (answers.map fun a => a.question_id).Nodup

/-- `ExamSubmissionIn.enforce_question_types`: an answer whose question type
is unknown (or falsy) is skipped; a known `'single'` question must have
exactly one selected id; a known `'multi'` question at least one. -/
def enforce_question_types (qtypes : ℤ → Option String)
    (answers : List AnswerSelection) : Bool :=
  answers.all fun a =>
    match qtypes a.question_id with
    | none => true
    | some q_type =>
      if q_type = "" then true
      else if q_type = "single" ∧ a.selected_option_ids.length ≠ 1 then false
      else if q_type = "multi" ∧ a.selected_option_ids.length < 1 then false
      else true

/-- The result of a successful `ExamSubmissionIn.model_validate`. -/
structure Submission where
  attempt_id : ℤ
  answers : List AnswerSelection
deriving DecidableEq, Repr

/-- `ExamSubmissionIn.model_validate` as invoked by the router: the
`attempt_id` has already been coerced to an int by the router, `answers` is
the raw payload value (defaulted to `[]` upstream), and `question_type_map`
is the map built from the stored questions.  `none` models a raised
`ValidationError`. -/
def ExamSubmissionIn_validate (attempt_id : ℤ) (answers_val : PyVal)
    (qtypes : ℤ → Option String) : Option Submission :=
  match answers_val with
  | .plist xs =>
    match tryMap parseAnswerVal xs with
    | none => none
    | some answers =>
      if ensure_unique_questions answers && enforce_question_types qtypes answers then
        some ⟨attempt_id, answers⟩
      else none
  | _ => none

/-! ## Form-body normalization (`submission_router.parse_submission_payload`) -/

/-- A parsed form body: each distinct key with the list of values submitted
for it (starlette's multidict view: `keys()` yields distinct keys,
`getlist` all values of a key). -/
abbrev FormData := List (PyStr × List PyStr)

/-- `"answer_"` as a character sequence. -/
def answerPrefixKey : PyStr := "answer_".toList

/-- `"q_"` as a character sequence. -/
def qPrefixKey : PyStr := "q_".toList

/-- Strip a trailing `[]` from a form key, as the parser does. -/
def stripArraySuffix (key : PyStr) : PyStr :=
  if ['[', ']'].isSuffixOf key then key.take (key.length - 2) else key

/-- Decide whether a form key addresses a question and extract its id:
after stripping `[]`, a key starting with `answer_` or `q_` has
`partition("_")` take everything after the first underscore (for these
prefixes, exactly the remainder after the prefix); it is kept only when
that fragment is all digits. -/
def parse_form_key (key : PyStr) : Option ℤ :=
  let key_base := stripArraySuffix key
  let raw_id :=
    if answerPrefixKey.isPrefixOf key_base then some (key_base.drop answerPrefixKey.length)
    else if qPrefixKey.isPrefixOf key_base then some (key_base.drop qPrefixKey.length)
    else none
  match raw_id with
  | none => none
  | some rid => if pyIsDigit rid then some (natOfDigits rid : ℤ) else none

/-- The `(question id, raw string values)` pairs the form parser extracts. -/
def form_answers (form : FormData) : List (ℤ × List PyStr) :=
  form.filterMap fun kv => (parse_form_key kv.1).map fun qid => (qid, kv.2)

/-- The raw payload handed to the submit handler: `attempt_id` as found in
the body (`none` = absent or `null`) and the raw `answers` value
(`none` = key absent, later defaulted to `[]`). -/
structure RawPayload where
  attempt_id : Option PyVal
  answers : Option PyVal

/-- `parse_submission_payload` on a form body: `attempt_id` is the form's
`attempt_id` value (last occurrence, per starlette `get`), and each
recognized answer key contributes a dict with its question id and the
key's string values. -/
def parse_submission_payload (form : FormData) : RawPayload :=
  { attempt_id :=
      ((form.find? fun kv => kv.1 = "attempt_id".toList).bind fun kv =>
        kv.2.getLast?).map .pstr
    answers := some (.plist ((form_answers form).map fun p =>
      .pdict [(questionIdKey, .pint p.1), (selectedIdsKey, .plist (p.2.map .pstr))])) }

/-! ## Threshold extraction (`submission_router.extract_threshold`) -/

/-- `DEFAULT_PASS_THRESHOLD = 0.6`. -/
def DEFAULT_PASS_THRESHOLD : ℚ := 6 / 10

/-- `extract_threshold`: the outer `Option` is presence of the
`pass_threshold` query parameter, the inner `Option` the result of Python
`float()` on it (`none` = `ValueError`); the parsed value is clamped to
`[0, 1]`. -/
def extract_threshold (raw : Option (Option ℚ)) : ℚ :=
  match raw with
  | none => DEFAULT_PASS_THRESHOLD
  | some none => DEFAULT_PASS_THRESHOLD
  | some (some value) => min (max value 0) 1

/-! ## The submit handler (`submission_router.submit_exam`) -/

/-- The database state the submit handler touches. -/
structure DB where
  questions : List Question
  sessions : List ExamSession
  responses : List UserResponse

/-- The request body after the parse stage: `malformed` models
`parse_submission_payload` raising `ValueError` (non-object JSON body or an
unreadable body). -/
inductive ParsedBody where
  | malformed
  | payload (p : RawPayload)

/-- The handler's observable outcome. -/
inductive SubmitResult where
  | badRequest
  | notFound
  | unprocessable
  | seeOther (attempt_id : ℤ)
deriving DecidableEq, Repr

/-- Questions ordered by id ascending (`order_by(Question.id.asc())`). -/
def sortedQuestions (qs : List Question) : List Question :=
  qs.insertionSort fun a b => a.id ≤ b.id

/-- `build_question_map` key lookup: the dict maps each question id to the
last question carrying it; ids are unique in the database, making this the
plain lookup. -/
def question_type_map (qs : List Question) : ℤ → Option String :=
  fun qid => (qs.find? fun q => q.id = qid).map fun q => q.type

/-- `len(question_map)`: the number of distinct question ids. -/
def question_map_size (qs : List Question) : ℕ :=
  ((qs.map fun q => q.id).dedup).length

/-- `answers_by_question.get(question.id, [])`: the submitted selection for
a question id, empty when unanswered (the dict comprehension over validated
answers; question ids are unique after validation, so the first match is
the dict entry). -/
def selected_for (submission : Submission) (qid : ℤ) : List ℤ :=
  ((submission.answers.find? fun a => a.question_id = qid).map
    fun a => a.selected_option_ids).getD []

/-- The aggregate score accumulated over the question loop. -/
def submit_score (questions : List Question) (submission : Submission) : ℚ :=
  (questions.map fun q => score_question q (selected_for submission q.id)).sum

/-- The `max_score` the submit handler stores: the attempt's stored value
when truthy, otherwise the question count (the trailing
`if max_score == 0` re-assignment included). -/
def submit_max_score (exam_session : ExamSession) (question_count : ℕ) : ℚ :=
  let max_score0 := pyOrQ exam_session.max_score (question_count : ℚ)
  if max_score0 = 0 then (question_count : ℚ) else max_score0

/-- `passed = bool(score >= (threshold * max_score if max_score else 0))`. -/
def submit_passed (score threshold max_score : ℚ) : Bool :=
  decide (score ≥ if max_score ≠ 0 then threshold * max_score else 0)

/-- The database state committed by a successful submission: prior
responses of the attempt deleted, one fresh response per stored question,
and the attempt summary fields rewritten. -/
def finalize_submission (exam_session : ExamSession) (submission : Submission)
    (threshold_param : Option (Option ℚ)) (db : DB) : DB :=
  let questions := sortedQuestions db.questions
  let kept := db.responses.filter fun r =>
    r.exam_session_id ≠ exam_session.id
  let new_rows := questions.map fun q =>
    UserResponse.mk exam_session.id q.id (selected_for submission q.id)
  let score := submit_score questions submission
  let max_score := submit_max_score exam_session (question_map_size questions)
  let passed := submit_passed score (extract_threshold threshold_param) max_score
  let session' : ExamSession :=
    { exam_session with
        completed := true
        total_score := some score
        max_score := some max_score
        passed := passed }
  { db with
      sessions := db.sessions.map fun s =>
        if s.id = exam_session.id then session' else s
      responses := kept ++ new_rows }

/-- `submit_exam` (`POST /exam/submit`): the full handler pipeline after
body parsing — attempt id presence and int coercion, attempt lookup,
schema validation, response replacement, scoring, and attempt summary
update.  Returns the HTTP outcome and the database state after commit. -/
def submit_exam (body : ParsedBody) (threshold_param : Option (Option ℚ))
    (db : DB) : SubmitResult × DB :=
  match body with
  | .malformed => (.badRequest, db)
  | .payload payload =>
    match payload.attempt_id with
    | none => (.badRequest, db)
    | some raw_attempt =>
      match pyIntOfVal raw_attempt with
      | none => (.badRequest, db)
      | some attempt_id_int =>
        match db.sessions.find? fun s => s.id = attempt_id_int with
        | none => (.notFound, db)
        | some exam_session =>
          let qtypes := question_type_map (sortedQuestions db.questions)
          match ExamSubmissionIn_validate attempt_id_int
              (payload.answers.getD (.plist [])) qtypes with
          | none => (.unprocessable, db)
          | some submission =>
            (.seeOther submission.attempt_id,
              finalize_submission exam_session submission threshold_param db)

/-! ## Result view (`exam_router.build_result`) -/

/-- One entry of the result breakdown (`schemas.QuestionResult`). -/
structure QuestionResult where
  question_id : ℤ
  selected_option_ids : List ℤ
  correct : Bool
  score : ℚ
deriving DecidableEq, Repr

/-- The aggregate result (`schemas.ResultOut`). -/
structure ResultOut where
  score : ℚ
  max_score : ℚ
  passed : Bool
  breakdown : List QuestionResult
deriving DecidableEq, Repr

/-- Per-response correctness as recomputed by the result view: for
`'single'` a singleton subset of the correct set, otherwise exact set
equality. -/
def response_is_correct (question : Question) (selected_option_ids : List ℤ) : Bool :=
  let correct_options := correct_ids question
  let selected_options := selected_option_ids.toFinset
  if question.type = "single" then
    decide (selected_options.card = 1) && decide (selected_options ⊆ correct_options)
  else
    decide (selected_options = correct_options)

/-- `exam_router.build_result`: recompute a breakdown and score from the
stored responses (given here with each response's question resolved, as the
ORM relationship does) and derive the reported aggregate.  `max_score`
falls back to the breakdown length when the stored one is null/zero. -/
def build_result (exam_session : ExamSession)
    (responses : List (Question × List ℤ)) : ResultOut :=
  let breakdown := responses.map fun r =>
    let is_correct := response_is_correct r.1 r.2
    QuestionResult.mk r.1.id r.2 is_correct (if is_correct then 1 else 0)
  let score : ℚ := (breakdown.map fun b => b.score).sum
  let max_score := pyOrQ exam_session.max_score (breakdown.length : ℚ)
  let passed :=
    exam_session.passed ||
      decide (score ≥ if max_score ≠ 0 then (7 / 10 : ℚ) * max_score else 0)
  ResultOut.mk score max_score passed breakdown

/-! ## The list-of-ints column codec (`models.JSONIntList`) -/

/-- A database text cell holding a serialized list, modelled at the
JSON-value level: the `json` library is an external collaborator, so a
stored string is represented by its parse result — `jsonText v` is a string
that is valid JSON parsing to `v`, `rawText` any string `json.loads`
rejects. -/
inductive StoredText where
  | jsonText (v : PyVal)
  | rawText

/-- `JSONIntList.process_bind_param`: `None` stays `NULL`; a list of ints is
int-coerced and dumped as a JSON array of ints. -/
def process_bind_param : Option (List ℤ) → Option StoredText
  | none => none
  | some value => some (.jsonText (.plist (value.map .pint)))

/-- `JSONIntList.process_result_value`: `NULL` and non-JSON text decode to
`[]` (the `json.loads` failure is caught); valid JSON is iterated with
`int` applied to each element — that step sits outside the `try`, so a
non-iterable (`none` result) or an element `int` rejects propagates as an
uncaught error.  Iterating a JSON string yields its one-character
substrings. -/
def process_result_value : Option StoredText → Option (List ℤ)
  | none => some []
  | some .rawText => some []
  | some (.jsonText v) =>
    match v with
    | .plist xs => tryMap pyIntOfVal xs
    | .pstr s => tryMap (fun c => pyIntOfStr [c]) s
    | _ => none

/-! ## Attempt creation (`exam_router.start_exam`) -/

/-- `start_exam`: a new attempt records the current question count as its
`max_score` (modelled for the claims about stored `max_score`; the row id
is chosen by the caller as the autoincrement value would be). -/
def start_exam (new_id : ℤ) (db : DB) : DB :=
  let question_count := db.questions.length
  { db with
      sessions := db.sessions ++
        [ExamSession.mk new_id false none (some (question_count : ℚ)) false] }

/-! ## Fixtures used by witnesses and counterexamples -/

/-- A single-choice question: option 10 correct, option 11 not. -/
def qSingle : Question := ⟨1, "single", [⟨10, true⟩, ⟨11, false⟩]⟩

/-- A multi-choice question: options 20 and 21 correct, 22 not. -/
def qMulti : Question := ⟨2, "multi", [⟨20, true⟩, ⟨21, true⟩, ⟨22, false⟩]⟩

/-- The `answers` value of a normalized submission: a list of answer dicts
whose selections are already lists of ints. -/
def normalizedAnswersVal (entries : List (ℤ × List ℤ)) : PyVal :=
  .plist (entries.map fun e =>
    .pdict [(questionIdKey, .pint e.1), (selectedIdsKey, .plist (e.2.map .pint))])

/-- Joining strings with `","` (the inverse image of `split(",")`). -/
def intercalateComma : List PyStr → PyStr
  | [] => []
  | [s] => s
  | s :: rest => s ++ ',' :: intercalateComma rest

/-! ## Fixtures for the submit pipeline -/

/-- A parsed payload: attempt 1, no answers. -/
def payloadEmpty : RawPayload := ⟨some (.pint 1), some (.plist [])⟩

/-- A database with one question and a fresh attempt. -/
def dbWit : DB := ⟨[qSingle], [⟨1, false, none, none, false⟩], []⟩

/-- A database whose attempt recorded `max_score = 2` while only one
question remains stored. -/
def dbStale : DB := ⟨[qSingle], [⟨1, false, none, some 2, false⟩], []⟩

/-- The updated attempt record a successful submission commits. -/
def finalize_session (exam_session : ExamSession) (submission : Submission)
    (tp : Option (Option ℚ)) (db : DB) : ExamSession :=
  { exam_session with
      completed := true
      total_score := some (submit_score (sortedQuestions db.questions) submission)
      max_score := some (submit_max_score exam_session
        (question_map_size (sortedQuestions db.questions)))
      passed := submit_passed
        (submit_score (sortedQuestions db.questions) submission)
        (extract_threshold tp)
        (submit_max_score exam_session
          (question_map_size (sortedQuestions db.questions))) }



/-! ## C1 — per-question scoring -/

/-- C1: the per-question scoring function returns, for a `'single'`
question, 1.0 exactly when one distinct option id was selected and it lies
in the correct-option set, and for a `'multi'` question 1.0 exactly when
the selected set equals the correct set (no partial credit); otherwise
0.0. -/
theorem score_question_spec (question : Question) (selected_ids : List ℤ) :
    (question.type = "single" →
      score_question question selected_ids =
        if selected_ids.toFinset.card = 1 ∧ selected_ids.toFinset ⊆ correct_ids question
        then 1 else 0) ∧
    (question.type = "multi" →
      score_question question selected_ids =
        if selected_ids.toFinset = correct_ids question then 1 else 0) := by
  constructor
  · intro h
    by_cases h1 : selected_ids.toFinset.card = 1
    · by_cases h2 : selected_ids.toFinset ⊆ correct_ids question <;>
        simp [score_question, h, h1, h2]
    · simp [score_question, h, h1]
  · intro h
    have hne : question.type ≠ "single" := by rw [h]; decide
    by_cases h2 : selected_ids.toFinset = correct_ids question <;>
      simp [score_question, hne, h2]

/-- C1 witness: the characterization applied to concrete questions and
selections. -/
theorem score_question_spec_witness :
    score_question qSingle [10] =
      (if ([10] : List ℤ).toFinset.card = 1 ∧
          ([10] : List ℤ).toFinset ⊆ correct_ids qSingle then 1 else 0) ∧
    score_question qMulti [20, 21] =
      (if ([20, 21] : List ℤ).toFinset = correct_ids qMulti then 1 else 0) :=
  ⟨(score_question_spec qSingle [10]).1 rfl,
   (score_question_spec qMulti [20, 21]).2 rfl⟩

/-! ## C9 — the JSONIntList codec -/

/-- Auxiliary: int-coercing a list of JSON ints recovers the list. -/
theorem tryMap_pyIntOfVal_pint (xs : List ℤ) :
    tryMap pyIntOfVal (xs.map .pint) = some xs := by
  induction xs with
  | nil => rfl
  | cons x xs ih => simp [tryMap, pyIntOfVal, ih]

/-- C9: the `JSONIntList` codec round-trips every list of ints, and decodes
a SQL `NULL` or a stored string that is not valid JSON to the empty list
instead of raising. -/
theorem jsonIntList_roundtrip :
    (∀ xs : List ℤ, process_result_value (process_bind_param (some xs)) = some xs) ∧
    process_result_value none = some [] ∧
    process_result_value (some .rawText) = some [] := by
  refine ⟨fun xs => ?_, rfl, rfl⟩
  simp [process_bind_param, process_result_value, tryMap_pyIntOfVal_pint]

/-! ## C8 — the result view's pass decision -/

/-- C8: the result view reports `passed` whenever the stored flag is set,
regardless of the recomputed score; with the flag clear it reports pass
exactly when the recomputed score reaches 0.7 of the reported max score
(the view-path threshold is the fixed 0.7, not the submit-path 0.6). -/
theorem build_result_passed_spec (exam_session : ExamSession)
    (responses : List (Question × List ℤ)) :
    (exam_session.passed = true → (build_result exam_session responses).passed = true) ∧
    (exam_session.passed = false →
      ((build_result exam_session responses).passed = true ↔
        (build_result exam_session responses).score ≥
          (7 / 10 : ℚ) * (build_result exam_session responses).max_score)) := by
  have hkey : ∀ sc m : ℚ,
      (sc ≥ if m ≠ 0 then (7 / 10 : ℚ) * m else 0) ↔ sc ≥ (7 / 10 : ℚ) * m := by
    intro sc m
    by_cases hm : m = 0 <;> simp [hm]
  constructor
  · intro h
    simp [build_result, h]
  · intro h
    simp only [build_result, h, Bool.false_or, decide_eq_true_eq]
    exact hkey _ _

/-- C8 witness: a stored-passed attempt with a failing recomputed score is
still reported as passed, and a not-stored-passed attempt follows the 0.7
rule. -/
theorem build_result_passed_spec_witness :
    ((ExamSession.mk 1 true (some 0) (some 2) true).passed = true →
      (build_result (ExamSession.mk 1 true (some 0) (some 2) true) [(qSingle, [11])]).passed = true) ∧
    ((ExamSession.mk 2 true (some 2) (some 2) false).passed = false →
      ((build_result (ExamSession.mk 2 true (some 2) (some 2) false) [(qSingle, [10])]).passed = true ↔
        (build_result (ExamSession.mk 2 true (some 2) (some 2) false) [(qSingle, [10])]).score ≥
          (7 / 10 : ℚ) *
            (build_result (ExamSession.mk 2 true (some 2) (some 2) false) [(qSingle, [10])]).max_score)) :=
  ⟨(build_result_passed_spec _ [(qSingle, [11])]).1,
   (build_result_passed_spec _ [(qSingle, [10])]).2⟩

/-! ## C4 — submission validation rules -/

/-- `len(set(l)) = len(l)` is exactly freedom from duplicates. -/
theorem toFinset_card_eq_length_iff (l : List ℤ) :
    l.toFinset.card = l.length ↔ l.Nodup := by
  constructor
  · intro h
    rw [List.card_toFinset] at h
    have hsub := List.dedup_sublist l
    have heq := hsub.eq_of_length h
    rw [← heq]
    exact List.nodup_dedup l
  · exact List.toFinset_card_of_nodup

/-- A list comprehension raises iff its body raises on some element. -/
theorem tryMap_eq_none_iff (f : α → Option β) (l : List α) :
    tryMap f l = none ↔ ∃ x ∈ l, f x = none := by
  induction l with
  | nil => simp [tryMap]
  | cons x xs ih => cases hf : f x <;> simp [tryMap, hf, ih]

/-- A list comprehension whose body succeeds everywhere maps the list. -/
theorem tryMap_eq_some_of (f : α → Option β) (g : α → β) (l : List α)
    (h : ∀ x ∈ l, f x = some (g x)) : tryMap f l = some (l.map g) := by
  induction l with
  | nil => rfl
  | cons x xs ih =>
    rw [tryMap, h x (by simp), ih fun y hy => h y (by simp [hy])]
    rfl

/-- Structural parse of a normalized answer dict reduces to per-answer
validation of its id list. -/
theorem parseAnswerVal_normalized (qid : ℤ) (ids : List ℤ) :
    parseAnswerVal (.pdict [(questionIdKey, .pint qid),
        (selectedIdsKey, .plist (ids.map .pint))]) =
      AnswerSelection.validate qid (.plist (ids.map .pint)) := rfl

/-- Per-answer validation of an int list: rejects empty or duplicated ids,
accepts anything else unchanged. -/
theorem answerSelection_validate_ints (qid : ℤ) (ids : List ℤ) :
    AnswerSelection.validate qid (.plist (ids.map .pint)) =
      if ids = [] ∨ ¬ ids.Nodup then none else some ⟨qid, ids⟩ := by
  rw [AnswerSelection.validate]
  rw [show coerce_ids (.plist (ids.map .pint)) = some ids from by
    rw [coerce_ids]; exact tryMap_pyIntOfVal_pint ids]
  by_cases he : ids = []
  · simp [he]
  · by_cases hd : ids.Nodup
    · simp [he, hd, List.isEmpty_iff, (toFinset_card_eq_length_iff ids).2 hd]
    · have : ids.toFinset.card ≠ ids.length := fun hc =>
        hd ((toFinset_card_eq_length_iff ids).1 hc)
      simp [he, hd, List.isEmpty_iff, this]

/-- The type-arity check on one answer, given a nonempty selection: it can
only fail for a known `'single'` question answered with other than one id. -/
theorem enforce_body_eq_false_iff (qtypes : ℤ → Option String) (a : AnswerSelection)
    (hne : a.selected_option_ids ≠ []) :
    (match qtypes a.question_id with
      | none => true
      | some q_type =>
        if q_type = "" then true
        else if q_type = "single" ∧ a.selected_option_ids.length ≠ 1 then false
        else if q_type = "multi" ∧ a.selected_option_ids.length < 1 then false
        else true) = false ↔
      qtypes a.question_id = some "single" ∧ a.selected_option_ids.length ≠ 1 := by
  have hlen : ¬ a.selected_option_ids.length < 1 := by
    simpa [Nat.lt_one_iff, List.length_eq_zero] using hne
  cases hq : qtypes a.question_id with
  | none => simp
  | some t =>
    by_cases ht : t = ""
    · simp [ht]
    · by_cases hs : t = "single" ∧ a.selected_option_ids.length ≠ 1
      · simp [ht, hs, hs.1]
      · have hm : ¬ (t = "multi" ∧ a.selected_option_ids.length < 1) :=
          fun hc => hlen hc.2
        by_cases hts : t = "single"
        · have : a.selected_option_ids.length = 1 := by
            by_contra hc
            exact hs ⟨hts, hc⟩
          simp [ht, hs, hm, hts, this]
        · simp only [if_neg ht, if_neg hs, if_neg hm]
          constructor
          · intro hfalse
            exact absurd hfalse (by simp)
          · rintro ⟨hc, -⟩
            exact absurd (Option.some.inj hc) hts

/-- Reduction of `ExamSubmissionIn_validate` when the per-answer parse
raises. -/
theorem validate_plist_none (attempt_id : ℤ) (xs : List PyVal)
    (qtypes : ℤ → Option String) (h : tryMap parseAnswerVal xs = none) :
    ExamSubmissionIn_validate attempt_id (.plist xs) qtypes = none := by
  rw [show ExamSubmissionIn_validate attempt_id (.plist xs) qtypes =
      (match tryMap parseAnswerVal xs with
        | none => none
        | some answers =>
          if ensure_unique_questions answers && enforce_question_types qtypes answers then
            some ⟨attempt_id, answers⟩
          else none) from rfl, h]

/-- Reduction of `ExamSubmissionIn_validate` when every answer parses. -/
theorem validate_plist_some (attempt_id : ℤ) (xs : List PyVal)
    (qtypes : ℤ → Option String) (answers : List AnswerSelection)
    (h : tryMap parseAnswerVal xs = some answers) :
    ExamSubmissionIn_validate attempt_id (.plist xs) qtypes =
      if ensure_unique_questions answers && enforce_question_types qtypes answers then
        some ⟨attempt_id, answers⟩
      else none := by
  rw [show ExamSubmissionIn_validate attempt_id (.plist xs) qtypes =
      (match tryMap parseAnswerVal xs with
        | none => none
        | some answers =>
          if ensure_unique_questions answers && enforce_question_types qtypes answers then
            some ⟨attempt_id, answers⟩
          else none) from rfl, h]

/-- A comprehension over a mapped list whose body succeeds everywhere. -/
theorem tryMap_map_eq_some_of (f : β → Option γ) (h : α → β) (g : α → γ)
    (l : List α) (hfg : ∀ x ∈ l, f (h x) = some (g x)) :
    tryMap f (l.map h) = some (l.map g) := by
  induction l with
  | nil => rfl
  | cons x xs ih =>
    rw [List.map_cons, tryMap, hfg x (by simp),
      ih fun y hy => hfg y (by simp [hy])]
    rfl

/-- C4: validating a normalized submission fails exactly when two answers
target the same question, or some answer's selection is empty or has
duplicate ids, or a question known to be `'single'` got other than one id;
answers whose question id is absent from the type map trigger no arity
check. -/
theorem exam_validation_spec (entries : List (ℤ × List ℤ))
    (qtypes : ℤ → Option String) (attempt_id : ℤ) :
    ExamSubmissionIn_validate attempt_id (normalizedAnswersVal entries) qtypes = none ↔
      (¬ (entries.map Prod.fst).Nodup ∨
       (∃ e ∈ entries, e.2 = [] ∨ ¬ e.2.Nodup) ∨
       (∃ e ∈ entries, qtypes e.1 = some "single" ∧ e.2.length ≠ 1)) := by
  rw [show normalizedAnswersVal entries = PyVal.plist (entries.map fun e =>
      PyVal.pdict [(questionIdKey, .pint e.1),
        (selectedIdsKey, .plist (e.2.map .pint))]) from rfl]
  by_cases hbad : ∃ e ∈ entries, e.2 = [] ∨ ¬ e.2.Nodup
  · obtain ⟨e, he, hb⟩ := hbad
    rw [validate_plist_none _ _ _ (by
      rw [tryMap_eq_none_iff]
      refine ⟨_, List.mem_map_of_mem _ he, ?_⟩
      rw [parseAnswerVal_normalized, answerSelection_validate_ints, if_pos hb])]
    exact iff_of_true rfl (Or.inr (Or.inl ⟨e, he, hb⟩))
  · push_neg at hbad
    have htm : tryMap parseAnswerVal (entries.map fun e =>
        PyVal.pdict [(questionIdKey, .pint e.1),
          (selectedIdsKey, .plist (e.2.map .pint))]) =
        some (entries.map fun e => AnswerSelection.mk e.1 e.2) := by
      apply tryMap_map_eq_some_of
      intro e he
      rw [parseAnswerVal_normalized, answerSelection_validate_ints,
        if_neg (by simp [(hbad e he).1, (hbad e he).2])]
    rw [validate_plist_some _ _ _ _ htm]
    have hmapfst : ((entries.map fun e => AnswerSelection.mk e.1 e.2).map
        fun a => a.question_id) = entries.map Prod.fst := by
      rw [List.map_map]; rfl
    constructor
    · intro h
      by_cases hu : ensure_unique_questions (entries.map fun e => AnswerSelection.mk e.1 e.2)
      · by_cases hz : enforce_question_types qtypes
            (entries.map fun e => AnswerSelection.mk e.1 e.2)
        · rw [if_pos (by rw [hu, hz]; rfl)] at h
          exact absurd h (by simp)
        · refine Or.inr (Or.inr ?_)
          rw [enforce_question_types] at hz
          rw [Bool.not_eq_true, List.all_eq_false] at hz
          obtain ⟨a, ha, hfa⟩ := hz
          obtain ⟨e, he, rfl⟩ := List.mem_map.1 ha
          rw [Bool.not_eq_true] at hfa
          have := (enforce_body_eq_false_iff qtypes _ (by exact (hbad e he).1)).1 hfa
          exact ⟨e, he, this⟩
      · refine Or.inl ?_
        rw [ensure_unique_questions, hmapfst] at hu
        simpa using hu
    · intro h
      rcases h with h | h | h
      · rw [if_neg]
        intro hc
        rw [Bool.and_eq_true] at hc
        have := hc.1
        rw [ensure_unique_questions, hmapfst] at this
        exact h (by simpa using this)
      · obtain ⟨e, he, hb⟩ := h
        exact absurd hb (by simpa using hbad e he)
      · rw [if_neg]
        intro hc
        rw [Bool.and_eq_true] at hc
        obtain ⟨e, he, hsingle⟩ := h
        have hz := hc.2
        rw [enforce_question_types, List.all_eq_true] at hz
        have hmem : AnswerSelection.mk e.1 e.2 ∈
            entries.map fun e => AnswerSelection.mk e.1 e.2 :=
          List.mem_map_of_mem _ he
        have := hz _ hmem
        rw [← Bool.not_eq_false] at this
        exact this ((enforce_body_eq_false_iff qtypes _ (hbad e he).1).2 hsingle)

/-! ## The submit pipeline: success characterization -/

/-- A successful validation echoes the attempt id the router coerced. -/
theorem validate_attempt_id (attempt_id : ℤ) (v : PyVal)
    (qtypes : ℤ → Option String) (s : Submission)
    (h : ExamSubmissionIn_validate attempt_id v qtypes = some s) :
    s.attempt_id = attempt_id := by
  cases v with
  | pnone => exact Option.noConfusion h
  | pint n => exact Option.noConfusion h
  | pstr str => exact Option.noConfusion h
  | pdict fields => exact Option.noConfusion h
  | plist xs =>
    cases htm : tryMap parseAnswerVal xs with
    | none =>
      rw [validate_plist_none _ _ _ htm] at h
      exact Option.noConfusion h
    | some answers =>
      rw [validate_plist_some _ _ _ _ htm] at h
      by_cases hc : ensure_unique_questions answers && enforce_question_types qtypes answers
      · rw [if_pos hc] at h
        cases h
        rfl
      · rw [if_neg hc] at h
        exact Option.noConfusion h

/-- Reduction of `submit_exam` on a parsed payload. -/
theorem submit_exam_payload (pay : RawPayload) (tp : Option (Option ℚ)) (db : DB) :
    submit_exam (.payload pay) tp db =
      (match pay.attempt_id with
       | none => (.badRequest, db)
       | some raw_attempt =>
         match pyIntOfVal raw_attempt with
         | none => (.badRequest, db)
         | some attempt_id_int =>
           match db.sessions.find? fun s => s.id = attempt_id_int with
           | none => (.notFound, db)
           | some exam_session =>
             match ExamSubmissionIn_validate attempt_id_int
                 (pay.answers.getD (.plist []))
                 (question_type_map (sortedQuestions db.questions)) with
             | none => (.unprocessable, db)
             | some submission =>
               (.seeOther submission.attempt_id,
                 finalize_submission exam_session submission tp db)) := rfl

/-- Anatomy of a successful submit: the body parsed, the attempt id coerced
to the redirect target, the attempt was found, validation succeeded, and
the committed state is `finalize_submission`. -/
theorem submit_exam_seeOther {body : ParsedBody} {tp : Option (Option ℚ)}
    {db : DB} {aid : ℤ} {db' : DB}
    (h : submit_exam body tp db = (.seeOther aid, db')) :
    ∃ pay raw exam_session submission,
      body = .payload pay ∧
      pay.attempt_id = some raw ∧
      pyIntOfVal raw = some aid ∧
      db.sessions.find? (fun s => s.id = aid) = some exam_session ∧
      ExamSubmissionIn_validate aid (pay.answers.getD (.plist []))
        (question_type_map (sortedQuestions db.questions)) = some submission ∧
      db' = finalize_submission exam_session submission tp db := by
  cases body with
  | malformed => exact absurd h (by simp [submit_exam])
  | payload pay =>
    rw [submit_exam_payload] at h
    split at h
    · exact absurd h (by simp)
    case _ raw hA =>
      split at h
      · exact absurd h (by simp)
      case _ attempt_id_int hI =>
        split at h
        · exact absurd h (by simp)
        case _ exam_session hF =>
          split at h
          · exact absurd h (by simp)
          case _ submission hV =>
            have hid := validate_attempt_id _ _ _ _ hV
            rw [Prod.mk.injEq] at h
            obtain ⟨hres, hdb⟩ := h
            have haid : attempt_id_int = aid := by
              have := hid.symm.trans (SubmitResult.seeOther.inj hres)
              exact this
            subst haid
            exact ⟨pay, raw, exam_session, submission, rfl, hA, hI, hF, hV, hdb.symm⟩

/-! ## C7 — form-key recognition and comma-splitting -/

/-- The `answer_` prefix as an explicit character list. -/
theorem answerPrefixKey_eq :
    answerPrefixKey = 'a' :: 'n' :: 's' :: 'w' :: 'e' :: 'r' :: '_' :: [] := by decide

/-- The `q_` prefix as an explicit character list. -/
theorem qPrefixKey_eq : qPrefixKey = 'q' :: '_' :: [] := by decide

/-- Stripping a literal `[]` suffix. -/
theorem stripArraySuffix_brackets (base : PyStr) :
    stripArraySuffix (base ++ ['[', ']']) = base := by
  rw [stripArraySuffix,
    if_pos (List.isSuffixOf_iff_suffix.2 (List.suffix_append base _))]
  have hlen : (base ++ ['[', ']']).length - 2 = base.length := by
    rw [List.length_append]
    rfl
  rw [hlen, List.take_left]

/-- A key not ending in `[]` is left unchanged. -/
theorem stripArraySuffix_eq_self (key : PyStr) (h : ¬ ['[', ']'] <:+ key) :
    stripArraySuffix key = key := by
  rw [stripArraySuffix, if_neg (mt List.isSuffixOf_iff_suffix.1 h)]

/-- A prefix-plus-digits key cannot end in `[]` (digits are not `]`). -/
theorem no_bracket_suffix (pre d : PyStr) (hd : pyIsDigit d = true)
    (hpre : ']' ∉ pre) : ¬ ['[', ']'].isSuffixOf (pre ++ d) := by
  rw [List.isSuffixOf_iff_suffix]
  rintro ⟨t0, ht0⟩
  have hmem : ']' ∈ pre ++ d := by
    rw [← ht0]
    simp
  rcases List.mem_append.1 hmem with hm | hm
  · exact hpre hm
  · have hd' := hd
    rw [pyIsDigit, Bool.and_eq_true] at hd'
    have := (List.all_eq_true.1 hd'.2) _ hm
    exact absurd this (by decide)

/-- `parse_form_key` as nested conditionals on the stripped key. -/
theorem parse_form_key_eq (key : PyStr) :
    parse_form_key key =
      (if answerPrefixKey.isPrefixOf (stripArraySuffix key) then
        (if pyIsDigit ((stripArraySuffix key).drop answerPrefixKey.length) then
          some ((natOfDigits ((stripArraySuffix key).drop answerPrefixKey.length) : ℤ))
        else none)
      else if qPrefixKey.isPrefixOf (stripArraySuffix key) then
        (if pyIsDigit ((stripArraySuffix key).drop qPrefixKey.length) then
          some ((natOfDigits ((stripArraySuffix key).drop qPrefixKey.length) : ℤ))
        else none)
      else none) := by
  by_cases h1 : answerPrefixKey.isPrefixOf (stripArraySuffix key) <;>
    by_cases h2 : qPrefixKey.isPrefixOf (stripArraySuffix key) <;>
      simp [parse_form_key, h1, h2]

/-- A form key yields question id `qid` exactly when it is `answer_<id>` or
`q_<id>`, optionally suffixed `[]`, with `<id>` a digit string of value
`qid`. -/
theorem parse_form_key_eq_some_iff (key : PyStr) (qid : ℤ) :
    parse_form_key key = some qid ↔
      ∃ base d, (key = base ∨ key = base ++ ['[', ']']) ∧
        (base = answerPrefixKey ++ d ∨ base = qPrefixKey ++ d) ∧
        pyIsDigit d = true ∧ qid = (natOfDigits d : ℤ) := by
  constructor
  · intro h
    rw [parse_form_key_eq] at h
    have hkey : key = stripArraySuffix key ∨
        key = stripArraySuffix key ++ ['[', ']'] := by
      by_cases hsuf : ['[', ']'].isSuffixOf key
      · obtain ⟨t0, ht0⟩ := List.isSuffixOf_iff_suffix.1 hsuf
        refine Or.inr ?_
        have hstrip : stripArraySuffix key = t0 := by
          rw [stripArraySuffix, if_pos hsuf, ← ht0]
          have hlen : (t0 ++ ['[', ']']).length - 2 = t0.length := by
            rw [List.length_append]
            rfl
          rw [hlen, List.take_left]
        rw [hstrip, ht0]
      · exact Or.inl (stripArraySuffix_eq_self key
          (mt List.isSuffixOf_iff_suffix.2 hsuf)).symm
    by_cases h1 : answerPrefixKey.isPrefixOf (stripArraySuffix key)
    · obtain ⟨d, hd⟩ := List.isPrefixOf_iff_prefix.1 h1
      rw [if_pos h1, ← hd, List.drop_left] at h
      by_cases hdig : pyIsDigit d
      · rw [if_pos hdig] at h
        exact ⟨stripArraySuffix key, d, hkey, Or.inl hd.symm, hdig,
          (Option.some.inj h).symm⟩
      · rw [if_neg hdig] at h
        exact absurd h (by simp)
    · rw [if_neg h1] at h
      by_cases h2 : qPrefixKey.isPrefixOf (stripArraySuffix key)
      · obtain ⟨d, hd⟩ := List.isPrefixOf_iff_prefix.1 h2
        rw [if_pos h2, ← hd, List.drop_left] at h
        by_cases hdig : pyIsDigit d
        · rw [if_pos hdig] at h
          exact ⟨stripArraySuffix key, d, hkey, Or.inr hd.symm, hdig,
            (Option.some.inj h).symm⟩
        · rw [if_neg hdig] at h
          exact absurd h (by simp)
      · rw [if_neg h2] at h
        exact absurd h (by simp)
  · rintro ⟨base, d, hkey, hbase, hdig, hqid⟩
    have hstrip : stripArraySuffix key = base := by
      rcases hkey with rfl | rfl
      · apply stripArraySuffix_eq_self
        intro hsuf
        rcases hbase with rfl | rfl
        · exact no_bracket_suffix _ _ hdig
            (by rw [answerPrefixKey_eq]; decide)
            (List.isSuffixOf_iff_suffix.2 hsuf)
        · exact no_bracket_suffix _ _ hdig
            (by rw [qPrefixKey_eq]; decide)
            (List.isSuffixOf_iff_suffix.2 hsuf)
      · exact stripArraySuffix_brackets base
    rw [parse_form_key_eq, hstrip]
    rcases hbase with rfl | rfl
    · rw [if_pos (List.isPrefixOf_iff_prefix.2 (List.prefix_append _ _)),
        List.drop_left, if_pos hdig, hqid]
    · have hnp : ¬ answerPrefixKey.isPrefixOf (qPrefixKey ++ d) := by
        rw [List.isPrefixOf_iff_prefix]
        rintro ⟨t, ht⟩
        have hh := congrArg List.head? ht
        rw [answerPrefixKey_eq, qPrefixKey_eq] at hh
        simp at hh
      rw [if_neg hnp,
        if_pos (List.isPrefixOf_iff_prefix.2 (List.prefix_append _ _)),
        List.drop_left, if_pos hdig, hqid]

/-- Splitting a comma-free string is the identity segment. -/
theorem splitOnComma_of_no_comma (s : PyStr) (h : ',' ∉ s) :
    splitOnComma s = [s] := by
  induction s with
  | nil => rfl
  | cons c cs ih =>
    have hc : ¬ c = ',' := fun hc => h (hc ▸ List.mem_cons_self c cs)
    rw [splitOnComma, if_neg hc, ih fun hm => h (List.mem_cons_of_mem _ hm)]

/-- Splitting after a comma-free head segment peels it off. -/
theorem splitOnComma_append (s t : PyStr) (h : ',' ∉ s) :
    splitOnComma (s ++ ',' :: t) = s :: splitOnComma t := by
  induction s with
  | nil =>
    rw [List.nil_append, splitOnComma, if_pos rfl]
  | cons c cs ih =>
    have hc : ¬ c = ',' := fun hc => h (hc ▸ List.mem_cons_self c cs)
    rw [List.cons_append, splitOnComma, if_neg hc,
      ih fun hm => h (List.mem_cons_of_mem _ hm)]

/-- `split(",")` recovers the comma-free segments a string was joined
from. -/
theorem splitOnComma_intercalate (ss : List PyStr) (hne : ss ≠ [])
    (h : ∀ s ∈ ss, ',' ∉ s) : splitOnComma (intercalateComma ss) = ss := by
  induction ss with
  | nil => exact absurd rfl hne
  | cons s rest ih =>
    cases rest with
    | nil => exact splitOnComma_of_no_comma s (h s (List.mem_cons_self s []))
    | cons s2 rest2 =>
      rw [show intercalateComma (s :: s2 :: rest2) =
          s ++ ',' :: intercalateComma (s2 :: rest2) from rfl]
      rw [splitOnComma_append _ _ (h s (List.mem_cons_self _ _)),
        ih (by simp) fun x hx => h x (List.mem_cons_of_mem _ hx)]

/-- C7: (a) the form normalizer emits an answer entry exactly for the keys
`answer_<id>` or `q_<id>` — optionally suffixed `[]` — whose id fragment is
all digits (any other key is silently skipped), carrying the key's values;
(b) a comma-joined string handed to the id coercion is split on commas and
every stripped nonempty token is parsed as an integer. -/
theorem normalizer_spec :
    (∀ (form : FormData) (qid : ℤ) (vs : List PyStr),
      (qid, vs) ∈ form_answers form ↔
        ∃ key base d, (key, vs) ∈ form ∧
          (key = base ∨ key = base ++ ['[', ']']) ∧
          (base = answerPrefixKey ++ d ∨ base = qPrefixKey ++ d) ∧
          pyIsDigit d = true ∧ qid = (natOfDigits d : ℤ)) ∧
    (∀ ss : List PyStr, ss ≠ [] → (∀ s ∈ ss, ',' ∉ s) →
      coerce_ids (.pstr (intercalateComma ss)) =
        tryMap pyIntOfStr ((ss.map pyStrip).filter fun t => !t.isEmpty)) := by
  constructor
  · intro form qid vs
    rw [form_answers, List.mem_filterMap]
    constructor
    · rintro ⟨⟨key, values⟩, hmem, hval⟩
      rw [Option.map_eq_some'] at hval
      obtain ⟨q, hq, hqv⟩ := hval
      rw [Prod.mk.injEq] at hqv
      obtain ⟨rfl, rfl⟩ := hqv
      obtain ⟨base, d, hkey, hbase, hdig, hqid⟩ :=
        (parse_form_key_eq_some_iff key _).1 hq
      exact ⟨key, base, d, hmem, hkey, hbase, hdig, hqid⟩
    · rintro ⟨key, base, d, hmem, hkey, hbase, hdig, hqid⟩
      refine ⟨(key, vs), hmem, ?_⟩
      rw [(parse_form_key_eq_some_iff key qid).2 ⟨base, d, hkey, hbase, hdig, hqid⟩]
      rfl
  · intro ss hne h
    rw [show coerce_ids (.pstr (intercalateComma ss)) =
        tryMap pyIntOfStr (((splitOnComma (intercalateComma ss)).map pyStrip).filter
          fun t => !t.isEmpty) from rfl,
      splitOnComma_intercalate ss hne h]

/-- C7 witness: a mixed form with both key styles, a `[]` suffix, and an
ignored non-digit key; and a concrete comma-joined selection string. -/
theorem normalizer_spec_witness :
    ((3, ["7".toList]) ∈ form_answers
        [("attempt_id".toList, ["1".toList]),
         ("answer_3".toList, ["7".toList]),
         ("q_x".toList, ["9".toList]),
         ("q_4[]".toList, ["8".toList])] ↔
      ∃ key base d,
        (key, ["7".toList]) ∈
          [("attempt_id".toList, ["1".toList]),
           ("answer_3".toList, ["7".toList]),
           ("q_x".toList, ["9".toList]),
           ("q_4[]".toList, ["8".toList])] ∧
        (key = base ∨ key = base ++ ['[', ']']) ∧
        (base = answerPrefixKey ++ d ∨ base = qPrefixKey ++ d) ∧
        pyIsDigit d = true ∧ (3 : ℤ) = (natOfDigits d : ℤ)) ∧
    coerce_ids (.pstr (intercalateComma [" 2".toList, "3 ".toList])) =
      tryMap pyIntOfStr ((([" 2".toList, "3 ".toList].map pyStrip).filter
        fun t => !t.isEmpty)) :=
  ⟨normalizer_spec.1 _ 3 _,
   normalizer_spec.2 [" 2".toList, "3 ".toList] (by decide)
     (by decide)⟩

/-! ## Stored-attempt bookkeeping lemmas -/

/-- The trailing `if max_score == 0` re-assignment never changes the value:
the stored max score is the Python `or`-chain itself. -/
theorem submit_max_score_eq (exam_session : ExamSession) (question_count : ℕ) :
    submit_max_score exam_session question_count =
      pyOrQ exam_session.max_score (question_count : ℚ) := by
  rw [submit_max_score]
  cases hms : exam_session.max_score with
  | none =>
    simp only [pyOrQ]
    by_cases hq : (question_count : ℚ) = 0 <;> simp [hq]
  | some x =>
    simp only [pyOrQ]
    by_cases hx : x = 0
    · by_cases hq : (question_count : ℚ) = 0 <;> simp [hx, hq]
    · simp [hx]

/-- A found session's id satisfies the lookup predicate. -/
theorem find?_session_id {sessions : List ExamSession} {aid : ℤ}
    {exam_session : ExamSession}
    (hF : sessions.find? (fun s => s.id = aid) = some exam_session) :
    exam_session.id = aid := by
  have h := List.find?_some hF
  simpa using h

/-- Looking up the attempt after the in-place update returns the updated
record. -/
theorem find?_update_session (sessions : List ExamSession) (aid : ℤ)
    (exam_session session' : ExamSession)
    (hF : sessions.find? (fun s => s.id = aid) = some exam_session)
    (hid : session'.id = exam_session.id) :
    (sessions.map fun s => if s.id = exam_session.id then session' else s).find?
      (fun s => s.id = aid) = some session' := by
  have heid : exam_session.id = aid := find?_session_id hF
  have hpf : ((fun s : ExamSession => decide (s.id = aid)) ∘
      fun s => if s.id = exam_session.id then session' else s) =
      fun s : ExamSession => decide (s.id = aid) := by
    funext s
    by_cases hs : s.id = exam_session.id
    · simp [hs, heid, hid]
    · simp [hs]
  rw [List.find?_map, hpf, hF, Option.map_some']
  rw [if_pos rfl]

/-- The number of distinct question ids among the sorted questions is the
question count when ids are unique. -/
theorem question_map_size_sorted (qs : List Question)
    (h : (qs.map fun q => q.id).Nodup) :
    question_map_size (sortedQuestions qs) = qs.length := by
  have hperm : ((sortedQuestions qs).map fun q => q.id).Perm
      (qs.map fun q => q.id) :=
    (List.perm_insertionSort _ qs).map _
  have hnd : ((sortedQuestions qs).map fun q => q.id).Nodup :=
    hperm.nodup_iff.2 h
  rw [question_map_size, List.Nodup.dedup hnd, List.length_map]
  exact (List.perm_insertionSort _ qs).length_eq

/-- The session stored by `finalize_submission`, located by attempt id. -/
theorem finalize_session_lookup (exam_session : ExamSession)
    (submission : Submission) (tp : Option (Option ℚ)) (db : DB) (aid : ℤ)
    (hF : db.sessions.find? (fun s => s.id = aid) = some exam_session) :
    (finalize_submission exam_session submission tp db).sessions.find?
        (fun s => s.id = aid) =
      some { exam_session with
              completed := true
              total_score := some (submit_score (sortedQuestions db.questions) submission)
              max_score := some (submit_max_score exam_session
                (question_map_size (sortedQuestions db.questions)))
              passed := submit_passed
                (submit_score (sortedQuestions db.questions) submission)
                (extract_threshold tp)
                (submit_max_score exam_session
                  (question_map_size (sortedQuestions db.questions))) } := by
  rw [show (finalize_submission exam_session submission tp db).sessions =
      (db.sessions.map fun s =>
        if s.id = exam_session.id then
          { exam_session with
              completed := true
              total_score := some (submit_score (sortedQuestions db.questions) submission)
              max_score := some (submit_max_score exam_session
                (question_map_size (sortedQuestions db.questions)))
              passed := submit_passed
                (submit_score (sortedQuestions db.questions) submission)
                (extract_threshold tp)
                (submit_max_score exam_session
                  (question_map_size (sortedQuestions db.questions))) }
        else s) from rfl]
  exact find?_update_session _ _ _ _ hF rfl

/-! ## C3 — the stored pass flag and the threshold -/

/-- C3: a successful submission stores
`passed = (score ≥ threshold · max_score)`, where the threshold is the
`pass_threshold` query value clamped to `[0, 1]` and defaults to `0.6` when
the parameter is missing or does not parse as a float. -/
theorem submit_pass_threshold_spec (body : ParsedBody) (tp : Option (Option ℚ))
    (db : DB) (aid : ℤ) (db' : DB)
    (h : submit_exam body tp db = (.seeOther aid, db')) :
    (∃ updated score max_score,
      db'.sessions.find? (fun s => s.id = aid) = some updated ∧
      updated.total_score = some score ∧
      updated.max_score = some max_score ∧
      (updated.passed = true ↔ score ≥ extract_threshold tp * max_score)) ∧
    extract_threshold none = 6 / 10 ∧
    extract_threshold (some none) = 6 / 10 ∧
    (∀ v : ℚ, extract_threshold (some (some v)) = min (max v 0) 1) := by
  obtain ⟨pay, raw, exam_session, submission, hbody, hA, hI, hF, hV, hdb⟩ :=
    submit_exam_seeOther h
  subst hdb
  refine ⟨⟨_, _, _, finalize_session_lookup _ _ _ _ _ hF, rfl, rfl, ?_⟩,
    rfl, rfl, fun v => rfl⟩
  rw [show ({ exam_session with
      completed := true
      total_score := some (submit_score (sortedQuestions db.questions) submission)
      max_score := some (submit_max_score exam_session
        (question_map_size (sortedQuestions db.questions)))
      passed := submit_passed
        (submit_score (sortedQuestions db.questions) submission)
        (extract_threshold tp)
        (submit_max_score exam_session
          (question_map_size (sortedQuestions db.questions))) } : ExamSession).passed =
    submit_passed (submit_score (sortedQuestions db.questions) submission)
      (extract_threshold tp)
      (submit_max_score exam_session
        (question_map_size (sortedQuestions db.questions))) from rfl]
  rw [submit_passed, decide_eq_true_eq]
  by_cases hm : submit_max_score exam_session
      (question_map_size (sortedQuestions db.questions)) = 0
  · rw [if_neg (not_not_intro hm), hm, mul_zero]
  · rw [if_pos hm]

/-- C3 witness: submitting with no threshold parameter against a concrete
database. -/
theorem submit_pass_threshold_spec_witness :
    (∃ updated score max_score,
      (submit_exam (.payload payloadEmpty) none dbWit).2.sessions.find?
        (fun s => s.id = 1) = some updated ∧
      updated.total_score = some score ∧
      updated.max_score = some max_score ∧
      (updated.passed = true ↔ score ≥ extract_threshold none * max_score)) ∧
    extract_threshold none = 6 / 10 ∧
    extract_threshold (some none) = 6 / 10 ∧
    (∀ v : ℚ, extract_threshold (some (some v)) = min (max v 0) 1) :=
  submit_pass_threshold_spec (.payload payloadEmpty) none dbWit 1
    (submit_exam (.payload payloadEmpty) none dbWit).2 (by rfl)

/-! ## C2 — the stored max score -/

/-- C2 counterexample: an attempt that recorded `max_score = 2` is
resubmitted when only one question is stored; the submission succeeds but
stores `max_score = 2`, not the current question count `1`. -/
theorem submit_max_score_counterexample :
    (submit_exam (.payload payloadEmpty) none dbStale).1 = .seeOther 1 ∧
    ((submit_exam (.payload payloadEmpty) none dbStale).2.sessions.map
      fun s => s.max_score) = [some 2] ∧
    dbStale.questions.length = 1 ∧ (2 : ℚ) ≠ (1 : ℚ) := by
  refine ⟨by decide, by decide, by decide, by decide⟩

/-- C2 (amended): a successful submission stores as `max_score` the
attempt's previously stored value whenever that is non-null and nonzero,
and falls back to the question count at submission time only otherwise. -/
theorem submit_max_score_stored (body : ParsedBody) (tp : Option (Option ℚ))
    (db : DB) (aid : ℤ) (db' : DB)
    (h : submit_exam body tp db = (.seeOther aid, db'))
    (hnodup : (db.questions.map fun q => q.id).Nodup) :
    ∃ exam_session updated,
      db.sessions.find? (fun s => s.id = aid) = some exam_session ∧
      db'.sessions.find? (fun s => s.id = aid) = some updated ∧
      updated.max_score =
        some (pyOrQ exam_session.max_score (db.questions.length : ℚ)) := by
  obtain ⟨pay, raw, exam_session, submission, hbody, hA, hI, hF, hV, hdb⟩ :=
    submit_exam_seeOther h
  subst hdb
  refine ⟨exam_session, _, hF, finalize_session_lookup _ _ _ _ _ hF, ?_⟩
  rw [show ({ exam_session with
      completed := true
      total_score := some (submit_score (sortedQuestions db.questions) submission)
      max_score := some (submit_max_score exam_session
        (question_map_size (sortedQuestions db.questions)))
      passed := submit_passed
        (submit_score (sortedQuestions db.questions) submission)
        (extract_threshold tp)
        (submit_max_score exam_session
          (question_map_size (sortedQuestions db.questions))) } : ExamSession).max_score =
    some (submit_max_score exam_session
      (question_map_size (sortedQuestions db.questions))) from rfl]
  rw [submit_max_score_eq, question_map_size_sorted _ hnodup]

/-- C2 witness (amended claim): the stale database again — the stored value
2 wins over the live question count. -/
theorem submit_max_score_stored_witness :
    ∃ exam_session updated,
      dbStale.sessions.find? (fun s => s.id = 1) = some exam_session ∧
      (submit_exam (.payload payloadEmpty) none dbStale).2.sessions.find?
        (fun s => s.id = 1) = some updated ∧
      updated.max_score =
        some (pyOrQ exam_session.max_score (dbStale.questions.length : ℚ)) :=
  submit_max_score_stored (.payload payloadEmpty) none dbStale 1
    (submit_exam (.payload payloadEmpty) none dbStale).2 (by rfl) (by decide)

/-! ## C6 — HTTP outcomes of POST /exam/submit -/

/-- C6: the submit endpoint answers 400 for an unreadable body, a missing
attempt id, or one that does not coerce to an int; 404 when no stored
attempt carries the id; 422 when validation fails; and a 303 redirect to
the attempt's result view on success — and every request gets exactly one
of these outcomes. -/
theorem submit_outcomes_spec (body : ParsedBody) (tp : Option (Option ℚ)) (db : DB) :
    (body = .malformed → (submit_exam body tp db).1 = .badRequest) ∧
    (∀ pay, body = .payload pay → pay.attempt_id = none →
      (submit_exam body tp db).1 = .badRequest) ∧
    (∀ pay raw, body = .payload pay → pay.attempt_id = some raw →
      pyIntOfVal raw = none → (submit_exam body tp db).1 = .badRequest) ∧
    (∀ pay raw aid, body = .payload pay → pay.attempt_id = some raw →
      pyIntOfVal raw = some aid → (∀ s ∈ db.sessions, s.id ≠ aid) →
      (submit_exam body tp db).1 = .notFound) ∧
    (∀ pay raw aid, body = .payload pay → pay.attempt_id = some raw →
      pyIntOfVal raw = some aid →
      ∀ exam_session, db.sessions.find? (fun s => s.id = aid) = some exam_session →
      ExamSubmissionIn_validate aid (pay.answers.getD (.plist []))
        (question_type_map (sortedQuestions db.questions)) = none →
      (submit_exam body tp db).1 = .unprocessable) ∧
    (∀ pay raw aid, body = .payload pay → pay.attempt_id = some raw →
      pyIntOfVal raw = some aid →
      ∀ exam_session, db.sessions.find? (fun s => s.id = aid) = some exam_session →
      ∀ submission, ExamSubmissionIn_validate aid (pay.answers.getD (.plist []))
        (question_type_map (sortedQuestions db.questions)) = some submission →
      (submit_exam body tp db).1 = .seeOther aid) ∧
    ((submit_exam body tp db).1 = .badRequest ∨
     (submit_exam body tp db).1 = .notFound ∨
     (submit_exam body tp db).1 = .unprocessable ∨
     ∃ a, (submit_exam body tp db).1 = .seeOther a) := by
  refine ⟨?_, ?_, ?_, ?_, ?_, ?_, ?_⟩
  · rintro rfl
    rfl
  · rintro pay rfl hA
    simp [submit_exam_payload, hA]
  · rintro pay raw rfl hA hI
    simp [submit_exam_payload, hA, hI]
  · rintro pay raw aid rfl hA hI hno
    have hF : db.sessions.find? (fun s => s.id = aid) = none :=
      List.find?_eq_none.2 fun s hs => by simpa using hno s hs
    simp [submit_exam_payload, hA, hI, hF]
  · rintro pay raw aid rfl hA hI exam_session hF hV
    simp [submit_exam_payload, hA, hI, hF, hV]
  · rintro pay raw aid rfl hA hI exam_session hF submission hV
    have hid := validate_attempt_id _ _ _ _ hV
    simp [submit_exam_payload, hA, hI, hF, hV, hid]
  · rcases hr : (submit_exam body tp db).1 with _ | _ | _ | a
    · exact Or.inl rfl
    · exact Or.inr (Or.inl rfl)
    · exact Or.inr (Or.inr (Or.inl rfl))
    · exact Or.inr (Or.inr (Or.inr ⟨a, rfl⟩))

/-- C6 witness: the four outcomes exercised on concrete requests. -/
theorem submit_outcomes_spec_witness :
    (submit_exam .malformed none dbWit).1 = .badRequest ∧
    (submit_exam (.payload ⟨none, some (.plist [])⟩) none dbWit).1 = .badRequest ∧
    (submit_exam (.payload ⟨some (.pint 7), some (.plist [])⟩) none dbWit).1 = .notFound ∧
    (submit_exam (.payload ⟨some (.pint 1),
      some (.plist [.pdict [(questionIdKey, .pint 1),
        (selectedIdsKey, .plist [])]])⟩) none dbWit).1 = .unprocessable ∧
    (submit_exam (.payload payloadEmpty) none dbWit).1 = .seeOther 1 :=
  ⟨(submit_outcomes_spec .malformed none dbWit).1 rfl,
   (submit_outcomes_spec _ none dbWit).2.1 _ rfl rfl,
   (submit_outcomes_spec _ none dbWit).2.2.2.1 _ (.pint 7) 7 rfl rfl rfl
     (by decide),
   (submit_outcomes_spec _ none dbWit).2.2.2.2.1 _ (.pint 1) 1 rfl rfl rfl
     (ExamSession.mk 1 false none none false) (by decide) (by decide),
   (submit_outcomes_spec _ none dbWit).2.2.2.2.2.1 _ (.pint 1) 1 rfl rfl rfl
     (ExamSession.mk 1 false none none false) (by decide)
     (Submission.mk 1 []) (by decide)⟩

/-! ## C5 — resubmission is idempotent -/

/-- Field-wise equality for database states. -/
theorem db_eq_of_fields (a b : DB) (h1 : a.questions = b.questions)
    (h2 : a.sessions = b.sessions) (h3 : a.responses = b.responses) : a = b := by
  cases a
  cases b
  cases h1
  cases h2
  cases h3
  rfl

/-- Field-wise equality for attempts. -/
theorem examSession_eq_of_fields (a b : ExamSession) (h1 : a.id = b.id)
    (h2 : a.completed = b.completed) (h3 : a.total_score = b.total_score)
    (h4 : a.max_score = b.max_score) (h5 : a.passed = b.passed) : a = b := by
  cases a
  cases b
  cases h1
  cases h2
  cases h3
  cases h4
  cases h5
  rfl

/-- Re-applying the Python `or`-fallback to its own result changes
nothing. -/
theorem pyOrQ_idem (a : Option ℚ) (b : ℚ) :
    pyOrQ (some (pyOrQ a b)) b = pyOrQ a b := by
  cases a with
  | none =>
    simp only [pyOrQ]
    by_cases hb : b = 0 <;> simp [hb]
  | some x =>
    simp only [pyOrQ]
    by_cases hx : x = 0
    · by_cases hb : b = 0 <;> simp [hx, hb]
    · simp [hx]

/-- The max score recomputed from an attempt that already stores the
computed max score is unchanged. -/
theorem submit_max_score_of_stored (s' exam_session : ExamSession) (qc : ℕ)
    (h : s'.max_score = some (submit_max_score exam_session qc)) :
    submit_max_score s' qc = submit_max_score exam_session qc := by
  rw [submit_max_score_eq, h, submit_max_score_eq]
  exact pyOrQ_idem _ _

/-- C5: resubmitting the identical body against the committed state is a
no-op — the same redirect and the very same stored state come back — and
after any successful submission the attempt's response rows are exactly the
fresh rows of that submission, appended after the surviving rows of other
attempts (prior rows replaced, not duplicated). -/
theorem submit_idempotent (body : ParsedBody) (tp : Option (Option ℚ))
    (db : DB) (aid : ℤ) (db' : DB)
    (h : submit_exam body tp db = (.seeOther aid, db')) :
    submit_exam body tp db' = (.seeOther aid, db') ∧
    ∃ new_rows,
      db'.responses =
        (db.responses.filter fun r => r.exam_session_id ≠ aid) ++ new_rows ∧
      (∀ r ∈ new_rows, r.exam_session_id = aid) ∧
      (db'.responses.filter fun r => r.exam_session_id = aid) = new_rows := by
  obtain ⟨pay, raw, exam_session, submission, hbody, hA, hI, hF, hV, hdb⟩ :=
    submit_exam_seeOther h
  subst hbody
  have heid : exam_session.id = aid := find?_session_id hF
  subst heid
  subst hdb
  have hsess' : (finalize_submission exam_session submission tp db).sessions.find?
      (fun s => s.id = exam_session.id) =
      some (finalize_session exam_session submission tp db) :=
    finalize_session_lookup _ _ _ _ _ hF
  have hid := validate_attempt_id _ _ _ _ hV
  have hX : finalize_session (finalize_session exam_session submission tp db)
      submission tp (finalize_submission exam_session submission tp db) =
      finalize_session exam_session submission tp db := by
    apply examSession_eq_of_fields
    · rfl
    · rfl
    · rfl
    · exact congrArg some (submit_max_score_of_stored _ exam_session _ rfl)
    · show submit_passed
        (submit_score (sortedQuestions db.questions) submission)
        (extract_threshold tp)
        (submit_max_score (finalize_session exam_session submission tp db)
          (question_map_size (sortedQuestions db.questions))) =
        submit_passed
          (submit_score (sortedQuestions db.questions) submission)
          (extract_threshold tp)
          (submit_max_score exam_session
            (question_map_size (sortedQuestions db.questions)))
      rw [submit_max_score_of_stored _ exam_session _ rfl]
  have hfin : finalize_submission (finalize_session exam_session submission tp db)
      submission tp (finalize_submission exam_session submission tp db) =
      finalize_submission exam_session submission tp db := by
    apply db_eq_of_fields
    · rfl
    · show ((finalize_submission exam_session submission tp db).sessions.map
        fun s => if s.id = (finalize_session exam_session submission tp db).id then
          finalize_session (finalize_session exam_session submission tp db)
            submission tp (finalize_submission exam_session submission tp db)
        else s) = (finalize_submission exam_session submission tp db).sessions
      simp only [hX]
      show ((db.sessions.map fun s =>
          if s.id = exam_session.id then
            finalize_session exam_session submission tp db
          else s).map fun s =>
          if s.id = (finalize_session exam_session submission tp db).id then
            finalize_session exam_session submission tp db
          else s) =
        db.sessions.map fun s =>
          if s.id = exam_session.id then
            finalize_session exam_session submission tp db
          else s
      rw [List.map_map]
      apply List.map_congr_left
      intro s _
      show (if ((if s.id = exam_session.id then
          finalize_session exam_session submission tp db else s) : ExamSession).id =
            (finalize_session exam_session submission tp db).id then
          finalize_session exam_session submission tp db
        else (if s.id = exam_session.id then
          finalize_session exam_session submission tp db else s)) =
        if s.id = exam_session.id then
          finalize_session exam_session submission tp db
        else s
      by_cases hs : s.id = exam_session.id
      · rw [if_pos hs, if_pos rfl]
      · rw [if_neg hs]
        exact if_neg hs
    · show ((finalize_submission exam_session submission tp db).responses.filter
          fun r => r.exam_session_id ≠ exam_session.id) ++
        ((sortedQuestions db.questions).map fun q =>
          UserResponse.mk exam_session.id q.id (selected_for submission q.id)) =
        (finalize_submission exam_session submission tp db).responses
      show (((db.responses.filter fun r => r.exam_session_id ≠ exam_session.id) ++
          ((sortedQuestions db.questions).map fun q =>
            UserResponse.mk exam_session.id q.id (selected_for submission q.id))).filter
          fun r => r.exam_session_id ≠ exam_session.id) ++
        ((sortedQuestions db.questions).map fun q =>
          UserResponse.mk exam_session.id q.id (selected_for submission q.id)) =
        (db.responses.filter fun r => r.exam_session_id ≠ exam_session.id) ++
          ((sortedQuestions db.questions).map fun q =>
            UserResponse.mk exam_session.id q.id (selected_for submission q.id))
      rw [List.filter_append, List.filter_filter]
      have hk : (db.responses.filter fun r =>
          decide (r.exam_session_id ≠ exam_session.id) &&
            decide (r.exam_session_id ≠ exam_session.id)) =
          db.responses.filter fun r => r.exam_session_id ≠ exam_session.id := by
        simp only [Bool.and_self]
      have hn : (((sortedQuestions db.questions).map fun q =>
          UserResponse.mk exam_session.id q.id
            (selected_for submission q.id)).filter
          fun r => r.exam_session_id ≠ exam_session.id) = [] := by
        rw [List.filter_eq_nil_iff]
        intro r hr
        obtain ⟨q, _, rfl⟩ := List.mem_map.1 hr
        simp
      rw [hk, hn, List.append_nil]
  have hV2 : ExamSubmissionIn_validate exam_session.id
      (pay.answers.getD (.plist []))
      (question_type_map (sortedQuestions
        (finalize_submission exam_session submission tp db).questions)) =
      some submission := hV
  constructor
  · simp only [submit_exam_payload, hA, hI, hsess', hV2, hid, hfin]
  · refine ⟨(sortedQuestions db.questions).map fun q =>
      UserResponse.mk exam_session.id q.id (selected_for submission q.id),
      ?_, ?_, ?_⟩
    · rfl
    · intro r hr
      obtain ⟨q, _, rfl⟩ := List.mem_map.1 hr
      rfl
    · show (((db.responses.filter fun r => r.exam_session_id ≠ exam_session.id) ++
          ((sortedQuestions db.questions).map fun q =>
            UserResponse.mk exam_session.id q.id (selected_for submission q.id))).filter
          fun r => r.exam_session_id = exam_session.id) =
        (sortedQuestions db.questions).map fun q =>
          UserResponse.mk exam_session.id q.id (selected_for submission q.id)
      rw [List.filter_append]
      have h1 : ((db.responses.filter fun r =>
          r.exam_session_id ≠ exam_session.id).filter
          fun r => r.exam_session_id = exam_session.id) = [] := by
        rw [List.filter_eq_nil_iff]
        intro r hr
        have hne : r.exam_session_id ≠ exam_session.id := by
          simpa using List.of_mem_filter hr
        simp [hne]
      have h2 : (((sortedQuestions db.questions).map fun q =>
          UserResponse.mk exam_session.id q.id
            (selected_for submission q.id)).filter
          fun r => r.exam_session_id = exam_session.id) =
          (sortedQuestions db.questions).map fun q =>
            UserResponse.mk exam_session.id q.id (selected_for submission q.id) := by
        rw [List.filter_eq_self]
        intro r hr
        obtain ⟨q, _, rfl⟩ := List.mem_map.1 hr
        simp
      rw [h1, h2, List.nil_append]

/-- C5 witness: submitting the empty answer set against the committed
state is a no-op on a concrete database. -/
theorem submit_idempotent_witness :
    (submit_exam (.payload payloadEmpty) none
        (submit_exam (.payload payloadEmpty) none dbWit).2 =
      (.seeOther 1, (submit_exam (.payload payloadEmpty) none dbWit).2)) ∧
    ∃ new_rows,
      (submit_exam (.payload payloadEmpty) none dbWit).2.responses =
        (dbWit.responses.filter fun r => r.exam_session_id ≠ 1) ++ new_rows ∧
      (∀ r ∈ new_rows, r.exam_session_id = 1) ∧
      ((submit_exam (.payload payloadEmpty) none dbWit).2.responses.filter
        fun r => r.exam_session_id = 1) = new_rows :=
  submit_idempotent (.payload payloadEmpty) none dbWit 1
    (submit_exam (.payload payloadEmpty) none dbWit).2 (by rfl)

/-! ## C10 — one stored response per question -/

/-- In a list with distinct keys, exactly one element carries a present
key. -/
theorem countP_key_eq_one {α : Type} (l : List α) (f : α → ℤ) (a : α)
    (hnd : (l.map f).Nodup) (ha : a ∈ l) :
    l.countP (fun x => f x = f a) = 1 := by
  induction l with
  | nil => cases ha
  | cons x xs ih =>
    rw [List.countP_cons]
    rw [List.map_cons, List.nodup_cons] at hnd
    rcases List.mem_cons.1 ha with rfl | hmem
    · have h0 : xs.countP (fun y => f y = f a) = 0 := by
        rw [List.countP_eq_zero]
        intro y hy
        simp only [decide_eq_true_eq]
        intro heq
        exact hnd.1 (heq ▸ List.mem_map_of_mem f hy)
      simp [h0]
    · have hx : ¬ f x = f a := by
        intro heq
        exact hnd.1 (heq ▸ List.mem_map_of_mem f hmem)
      rw [ih hnd.2 hmem]
      simp [hx]

/-- C10: after a successful submission the attempt holds exactly one
response row per stored question — `db.questions.length` rows in all —
and a question absent from the submitted answers is stored with an empty
selection, even though the validator refuses an empty selection inside the
payload itself. -/
theorem submit_responses_per_question (body : ParsedBody)
    (tp : Option (Option ℚ)) (db : DB) (aid : ℤ) (db' : DB)
    (h : submit_exam body tp db = (.seeOther aid, db'))
    (hnodup : (db.questions.map fun q => q.id).Nodup) :
    (∀ q ∈ db.questions,
      (db'.responses.countP fun r =>
        r.exam_session_id = aid ∧ r.question_id = q.id) = 1) ∧
    ((db'.responses.filter fun r => r.exam_session_id = aid).length =
      db.questions.length) ∧
    (∀ pay submission, body = .payload pay →
      ExamSubmissionIn_validate aid (pay.answers.getD (.plist []))
        (question_type_map (sortedQuestions db.questions)) = some submission →
      ∀ q ∈ db.questions, q.id ∉ submission.answers.map (fun a => a.question_id) →
        UserResponse.mk aid q.id [] ∈ db'.responses) ∧
    (∀ qid : ℤ, AnswerSelection.validate qid (.plist []) = none) := by
  obtain ⟨pay, raw, exam_session, submission, hbody, hA, hI, hF, hV, hdb⟩ :=
    submit_exam_seeOther h
  subst hbody
  have heid : exam_session.id = aid := find?_session_id hF
  subst heid
  subst hdb
  have hqmem : ∀ q ∈ db.questions, q ∈ sortedQuestions db.questions :=
    fun q hq => (List.perm_insertionSort _ db.questions).mem_iff.2 hq
  have hqnodup : ((sortedQuestions db.questions).map fun q => q.id).Nodup :=
    ((List.perm_insertionSort _ db.questions).map _).nodup_iff.2 hnodup
  have hresp : (finalize_submission exam_session submission tp db).responses =
      (db.responses.filter fun r => r.exam_session_id ≠ exam_session.id) ++
        ((sortedQuestions db.questions).map fun q =>
          UserResponse.mk exam_session.id q.id (selected_for submission q.id)) := rfl
  refine ⟨?_, ?_, ?_, ?_⟩
  · intro q hq
    rw [hresp, List.countP_append]
    have hkept : ((db.responses.filter fun r =>
        r.exam_session_id ≠ exam_session.id).countP fun r =>
        r.exam_session_id = exam_session.id ∧ r.question_id = q.id) = 0 := by
      rw [List.countP_eq_zero]
      intro r hr
      have hne : r.exam_session_id ≠ exam_session.id := by
        simpa using List.of_mem_filter hr
      simp [hne]
    have hnew : (((sortedQuestions db.questions).map fun q' =>
        UserResponse.mk exam_session.id q'.id
          (selected_for submission q'.id)).countP fun r =>
        r.exam_session_id = exam_session.id ∧ r.question_id = q.id) = 1 := by
      rw [List.countP_map]
      have hpred : ((fun r : UserResponse =>
          decide (r.exam_session_id = exam_session.id ∧ r.question_id = q.id)) ∘
          fun q' : Question => UserResponse.mk exam_session.id q'.id
            (selected_for submission q'.id)) =
          fun q' : Question => decide (q'.id = q.id) := by
        funext q'
        simp
      rw [hpred]
      exact countP_key_eq_one _ (fun q' => q'.id) q hqnodup (hqmem q hq)
    rw [hkept, hnew]
  · rw [hresp, List.filter_append]
    have h1 : ((db.responses.filter fun r =>
        r.exam_session_id ≠ exam_session.id).filter
        fun r => r.exam_session_id = exam_session.id) = [] := by
      rw [List.filter_eq_nil_iff]
      intro r hr
      have hne : r.exam_session_id ≠ exam_session.id := by
        simpa using List.of_mem_filter hr
      simp [hne]
    have h2 : (((sortedQuestions db.questions).map fun q =>
        UserResponse.mk exam_session.id q.id
          (selected_for submission q.id)).filter
        fun r => r.exam_session_id = exam_session.id) =
        (sortedQuestions db.questions).map fun q =>
          UserResponse.mk exam_session.id q.id (selected_for submission q.id) := by
      rw [List.filter_eq_self]
      intro r hr
      obtain ⟨q, _, rfl⟩ := List.mem_map.1 hr
      simp
    rw [h1, h2, List.nil_append, List.length_map]
    exact (List.perm_insertionSort _ db.questions).length_eq
  · rintro pay2 submission2 hpay2 hV2 q hq hqnot
    have hpay : pay2 = pay := (ParsedBody.payload.inj hpay2).symm
    subst hpay
    have hsub : submission2 = submission := Option.some.inj (hV2.symm.trans hV)
    subst hsub
    have hsel : selected_for submission2 q.id = [] := by
      rw [selected_for, List.find?_eq_none.2]
      · rfl
      · intro a ha
        simp only [decide_eq_true_eq]
        intro heq
        exact hqnot (heq ▸ List.mem_map_of_mem _ ha)
    rw [hresp]
    refine List.mem_append.2 (Or.inr ?_)
    have hin := List.mem_map_of_mem (fun q' : Question =>
      UserResponse.mk exam_session.id q'.id (selected_for submission2 q'.id))
      (hqmem q hq)
    simpa [hsel] using hin
  · intro qid
    rfl

/-- C10 witness: one question, an empty submission — one response row per
question, stored with an empty selection. -/
theorem submit_responses_per_question_witness :
    (∀ q ∈ dbWit.questions,
      ((submit_exam (.payload payloadEmpty) none dbWit).2.responses.countP
        fun r => r.exam_session_id = 1 ∧ r.question_id = q.id) = 1) ∧
    (((submit_exam (.payload payloadEmpty) none dbWit).2.responses.filter
        fun r => r.exam_session_id = 1).length = dbWit.questions.length) ∧
    (∀ pay submission, (ParsedBody.payload payloadEmpty) = .payload pay →
      ExamSubmissionIn_validate 1 (pay.answers.getD (.plist []))
        (question_type_map (sortedQuestions dbWit.questions)) = some submission →
      ∀ q ∈ dbWit.questions,
        q.id ∉ submission.answers.map (fun a => a.question_id) →
        UserResponse.mk 1 q.id [] ∈
          (submit_exam (.payload payloadEmpty) none dbWit).2.responses) ∧
    (∀ qid : ℤ, AnswerSelection.validate qid (.plist []) = none) :=
  submit_responses_per_question (.payload payloadEmpty) none dbWit 1
    (submit_exam (.payload payloadEmpty) none dbWit).2 (by rfl) (by decide)
